import Mathlib

/-!
Verification of the quorum-store proof coordinator, the block-executor
read proxy, and the quorum-store coordinator shutdown protocol, by a
shallow embedding of the Rust sources
(`consensus/src/quorum_store/proof_coordinator.rs`,
`aptos-move/block-executor/src/view.rs`,
`consensus/src/quorum_store/quorum_store_coordinator.rs`) into Lean.

Hash maps (`HashMap<HashValue, _>`, `HashMap<PeerId, _>`, `BTreeMap`)
are embedded as functions `Nat → Option α`; peer ids, hash values and
signatures are opaque and embedded as `Nat`.
-/

/-- PeerId (account address) embedded as an opaque natural. -/
abbrev PeerId := Nat

/-- HashValue (batch digest) embedded as an opaque natural. -/
abbrev HashValue := Nat

/-- A bls12381 signature, opaque. -/
abbrev Signature := Nat

/-- A finite map embedded as a function; models Rust `HashMap`/`BTreeMap`
where the program only looks up, inserts, and removes single keys. -/
abbrev FinMap (α : Type) := Nat → Option α

/-- The empty map (`HashMap::new` / `BTreeMap::new`). -/
def FinMap.empty {α : Type} : FinMap α := fun _ => none

/-- The `insert` replaces any previous binding of the key. -/
def FinMap.insert {α : Type} (m : FinMap α) (k : Nat) (v : α) : FinMap α :=
  fun k' => if k' = k then some v else m k'

/-- The `remove` deletes the binding of the key, if any. -/
def FinMap.remove {α : Type} (m : FinMap α) (k : Nat) : FinMap α :=
  fun k' => if k' = k then none else m k'

/-- The `contains_key`. -/
def FinMap.contains {α : Type} (m : FinMap α) (k : Nat) : Bool :=
  (m k).isSome

/-- The `SignedDigestInfo` from `aptos_consensus_types::proof_of_store`: the
canonical info object identifying a batch.  Only `digest` and
`batch_author` are consulted by the coordinator; the remaining fields
(epoch, expiration, payload sizes) are lumped into `rest` so that two
infos can differ even when digest and author agree. -/
structure SignedDigestInfo where
  digest : HashValue
  batch_author : PeerId
  rest : Nat
  deriving DecidableEq

/-- The `SignedDigest`: one validator's signature over a `SignedDigestInfo`. -/
structure SignedDigest where
  signer : PeerId
  info : SignedDigestInfo
  signature : Signature
  deriving DecidableEq

/-- The `SignedDigest::digest()` returns the digest of the signed info. -/
def SignedDigest.digest (sd : SignedDigest) : HashValue := sd.info.digest

/-- The `SignedDigestError` from `aptos_consensus_types::proof_of_store`. -/
inductive SignedDigestError where
  | WrongInfo
  | DuplicatedSignature
  deriving DecidableEq

/-- The `ValidatorVerifier`, abstract: a voting-power check over the set of
signers (given as the characteristic function of the accumulated
signature map) and a signature aggregation function.  `take` unwraps the
aggregation result with `unreachable!`, so aggregation is total here. -/
structure ValidatorVerifier where
  check_voting_power : FinMap Signature → Bool
  aggregate_signatures : FinMap Signature → Signature

/-- The `ProofOfStore`: the finalized aggregate proof. -/
structure ProofOfStore where
  info : SignedDigestInfo
  multi_signature : Signature
  deriving DecidableEq

/-- The `IncrementalProofState`: per-digest accumulation state. -/
structure IncrementalProofState where
  info : SignedDigestInfo
  aggregated_signature : FinMap Signature

/-- The `IncrementalProofState::new`. -/
def IncrementalProofState.new (info : SignedDigestInfo) : IncrementalProofState :=
  { info := info, aggregated_signature := FinMap.empty }

/-- The `IncrementalProofState::add_signature`: reject a mismatching info
with `WrongInfo`, a repeated signer with `DuplicatedSignature`, otherwise
insert the signer's signature. -/
def IncrementalProofState.add_signature (s : IncrementalProofState)
    (sd : SignedDigest) : Except SignedDigestError IncrementalProofState :=
  if sd.info ≠ s.info then
    .error .WrongInfo
  else if s.aggregated_signature.contains sd.signer then
    .error .DuplicatedSignature
  else
    .ok { s with
      aggregated_signature := s.aggregated_signature.insert sd.signer sd.signature }

/-- The `IncrementalProofState::ready`: the local peer has contributed and
the contributor set crosses the voting-power threshold. -/
def IncrementalProofState.ready (s : IncrementalProofState)
    (vv : ValidatorVerifier) (my_peer_id : PeerId) : Bool :=
  s.aggregated_signature.contains my_peer_id
    && vv.check_voting_power s.aggregated_signature

/-- The `IncrementalProofState::take`: aggregate the partial signatures into
a single proof. -/
def IncrementalProofState.take (s : IncrementalProofState)
    (vv : ValidatorVerifier) : ProofOfStore :=
  { info := s.info,
    multi_signature := vv.aggregate_signatures s.aggregated_signature }

/-- Modelled from the spec: the `Timeouts<HashValue>` utility
(`quorum_store/utils.rs`, not part of the provided sources).  Per the
spec, each `add` records the entry's per-digest timeout at insertion,
and `expire` removes and returns every digest whose timeout has elapsed.
Entries carry their absolute expiry instant. -/
structure TimeoutEntry where
  expiry : Nat
  digest : HashValue
  deriving DecidableEq

/-- Modelled from the spec: the pending-timeout queue. -/
abbrev Timeouts := List TimeoutEntry

/-- Modelled from the spec: `Timeouts::add` records expiry `now + timeout`. -/
def Timeouts.add (ts : Timeouts) (d : HashValue) (timeout_ms now : Nat) : Timeouts :=
  ts ++ [⟨now + timeout_ms, d⟩]

/-- Modelled from the spec: `Timeouts::expire` splits off (and returns)
the digests whose expiry has passed. -/
def Timeouts.expire (ts : Timeouts) (now : Nat) : Timeouts × List HashValue :=
  (ts.filter (fun e => decide (now < e.expiry)),
   (ts.filter (fun e => decide (e.expiry ≤ now))).map (fun e => e.digest))

/-- The `ProofCoordinator`: the proof aggregator's state.  The ambient clock
(`chrono::Utc::now`) is passed explicitly as `now` to the operations. -/
structure ProofCoordinator where
  peer_id : PeerId
  proof_timeout_ms : Nat
  digest_to_proof : FinMap IncrementalProofState
  digest_to_time : FinMap Nat
  timeouts : Timeouts

/-- The `ProofCoordinator::new`. -/
def ProofCoordinator.new (proof_timeout_ms : Nat) (peer_id : PeerId) : ProofCoordinator :=
  { peer_id := peer_id
    proof_timeout_ms := proof_timeout_ms
    digest_to_proof := FinMap.empty
    digest_to_time := FinMap.empty
    timeouts := [] }

/-- The `ProofCoordinator::init_proof`: register the timeout, create the
empty state, and record the creation time (`or_insert`: only if absent). -/
def ProofCoordinator.init_proof (c : ProofCoordinator) (sd : SignedDigest)
    (now : Nat) : ProofCoordinator :=
  { c with
    timeouts := c.timeouts.add sd.digest c.proof_timeout_ms now
    digest_to_proof :=
      c.digest_to_proof.insert sd.digest (IncrementalProofState.new sd.info)
    digest_to_time :=
      if c.digest_to_time.contains sd.digest then c.digest_to_time
      else c.digest_to_time.insert sd.digest now }

/-- The tail of `ProofCoordinator::add_signature` after the
unknown-digest handling (the `match self.digest_to_proof.entry(...)`
block): add to the occupied entry, and when the state becomes ready,
remove it, aggregate, and return the proof. -/
def ProofCoordinator.add_signature_known (c : ProofCoordinator)
    (sd : SignedDigest) (vv : ValidatorVerifier) :
    ProofCoordinator × Except SignedDigestError (Option ProofOfStore) :=
  match c.digest_to_proof sd.digest with
  | some st =>
    match st.add_signature sd with
    | .error e => (c, .error e)
    | .ok st' =>
      if st'.ready vv c.peer_id then
        -- entry removed; proof taken; creation time removed (the
        -- `.expect` there is modelled by `finalizeTime` below)
        ({ c with
            digest_to_proof := c.digest_to_proof.remove sd.digest
            digest_to_time := c.digest_to_time.remove sd.digest },
         .ok (some (st'.take vv)))
      else
        ({ c with digest_to_proof := c.digest_to_proof.insert sd.digest st' },
         .ok none)
  | none => (c, .ok none)

/-- The `ProofCoordinator::add_signature`.  Rust mutates `&mut self` and
returns `Result<Option<ProofOfStore>, SignedDigestError>`; here the
(possibly updated) coordinator is returned alongside the result, so an
error value comes with the coordinator state left behind by the call. -/
def ProofCoordinator.add_signature (c : ProofCoordinator) (sd : SignedDigest)
    (vv : ValidatorVerifier) (now : Nat) :
    ProofCoordinator × Except SignedDigestError (Option ProofOfStore) :=
  if ¬ c.digest_to_proof.contains sd.digest ∧ sd.info.batch_author ≠ c.peer_id then
    (c, .error .WrongInfo)
  else
    ProofCoordinator.add_signature_known
      (if ¬ c.digest_to_proof.contains sd.digest then c.init_proof sd now else c)
      sd vv

/-- The creation-time lookup performed when a proof is finalized:
`self.digest_to_time.remove(&digest).expect("Batch created without
recording the time!")`.  The `expect` fires exactly when this is `none`. -/
def ProofCoordinator.finalizeTime (c : ProofCoordinator) (d : HashValue) : Option Nat :=
  c.digest_to_time d

/-- The `ProofCoordinator::expire`: remove every expired digest from
`digest_to_proof`, incrementing the timeout counter once per expired
digest (the counter increments are returned as a count). -/
def ProofCoordinator.expire (c : ProofCoordinator) (now : Nat) :
    ProofCoordinator × Nat :=
  let p := c.timeouts.expire now
  ({ c with
      timeouts := p.1
      digest_to_proof := p.2.foldl (fun m d => m.remove d) c.digest_to_proof },
   p.2.length)

/-!
## Block-executor read proxy (`aptos-move/block-executor/src/view.rs`)

`MVHashMapView::read` loops over `versioned_map.read` outcomes; the
multi-version map and the scheduler live outside the provided sources,
so they enter as an oracle environment: the outcome of the `t`-th MVS
query of the key during one `read` call, and the scheduler's answer to
`wait_for_dependency`.  The Rust loop may spin forever, so `read` takes
fuel; `none` stands for a run that never leaves the loop.
-/

/-- Modelled from the spec: `DeltaOp` (`aptos_aggregator::delta_change_set`,
not part of the provided sources): an arithmetic overlay on a `u128`
(add or subtract with a bound) that applies to a concrete integer or
fails with a (VM-status) bound violation. -/
structure DeltaOp where
  isPlus : Bool
  amount : Nat
  maxValue : Nat
  deriving DecidableEq

/-- The `StatusCode` values the embedded code mentions. -/
inductive StatusCode where
  | STORAGE_ERROR
  | ARITHMETIC_ERROR
  deriving DecidableEq

/-- The `VMStatus`: an execution-level (VM) status. -/
inductive VMStatus where
  | Error (code : StatusCode)
  deriving DecidableEq

/-- Modelled from the spec: `DeltaOp::apply_to` produces a concrete
integer or fails (overflow / bound violation); the failure reaches
`view.rs` as `pe.finish(Location::Undefined).into_vm_status()`, i.e. as
a `VMStatus`. -/
def DeltaOp.apply_to (d : DeltaOp) (base : Nat) : Except VMStatus Nat :=
  if d.isPlus then
    if base + d.amount ≤ d.maxValue then .ok (base + d.amount)
    else .error (.Error .ARITHMETIC_ERROR)
  else
    if d.amount ≤ base then .ok (base - d.amount)
    else .error (.Error .ARITHMETIC_ERROR)

/-- Modelled from the spec: the read-descriptor kinds of
`txn_last_input_output::ReadDescriptor` (constructors
`from_version`, `from_resolved`, `from_unresolved`, `from_storage`,
`from_delta_application_failure`). -/
inductive ReadKind where
  | version (idx incarnation : Nat)
  | resolved (value : Nat)
  | unresolved (delta : DeltaOp)
  | storage
  | deltaFailure
  deriving DecidableEq

/-- Modelled from the spec: a captured read descriptor `(key, kind)`. -/
structure ReadDescriptor (K : Type) where
  key : K
  kind : ReadKind

/-- The `MVHashMapError` (`aptos_mvhashmap`): the non-`Ok` outcomes of an
MVS read. -/
inductive MVHashMapError where
  | NotFound
  | Unresolved (delta : DeltaOp)
  | Dependency (dep_idx : Nat)
  | DeltaApplicationFailure
  deriving DecidableEq

/-- The `MVHashMapOutput` (`aptos_mvhashmap`): the `Ok` outcomes of an MVS
read. -/
inductive MVHashMapOutput (V : Type) where
  | Version (txn_idx incarnation : Nat) (v : V)
  | Resolved (value : Nat)

/-- The `ReadResult` (`view.rs`): what the proxy hands to the client. -/
inductive ReadResult (V : Type) where
  | Value (v : V)
  | U128 (value : Nat)
  | Unresolved (delta : DeltaOp)
  | None

/-- The environment a single `MVHashMapView::read` call runs against:
`mvsRead key t` is the outcome of the `t`-th `versioned_map.read` query,
and `waitForDependency txn dep` is `scheduler.wait_for_dependency`
(`some ()` = a condition handle to block on, `none` = the dependency is
already resolved). -/
structure ReadEnv (K V : Type) where
  mvsRead : K → Nat → Except MVHashMapError (MVHashMapOutput V)
  waitForDependency : Nat → Nat → Option Unit

/-- What happened at one `Dependency` retry: the proxy either blocked on
the scheduler's condition (and was later signalled) or retried
immediately because the dependency was already resolved. -/
inductive DepEvent where
  | blockedOn (dep_idx : Nat)
  | resolvedImmediately (dep_idx : Nat)
  deriving DecidableEq

/-- The `MVHashMapView::read`: loop over MVS outcomes, pushing exactly one
read descriptor at exit; `Dependency` consults the scheduler, blocks
when a condition is returned, and retries.  Returns the dependency
events in order plus, unless the fuel runs out, the pushed descriptor
and the returned `ReadResult`. -/
def MVHashMapView.read {K V : Type} (env : ReadEnv K V) (key : K) (txn_idx : Nat) :
    Nat → Nat → List DepEvent × Option (ReadDescriptor K × ReadResult V)
  | _, 0 => ([], none)
  | t, fuel + 1 =>
    match env.mvsRead key t with
    | .ok (.Version idx incarnation v) =>
      ([], some (⟨key, .version idx incarnation⟩, .Value v))
    | .ok (.Resolved value) =>
      ([], some (⟨key, .resolved value⟩, .U128 value))
    | .error .NotFound =>
      ([], some (⟨key, .storage⟩, .None))
    | .error (.Unresolved delta) =>
      ([], some (⟨key, .unresolved delta⟩, .Unresolved delta))
    | .error (.Dependency dep_idx) =>
      match env.waitForDependency txn_idx dep_idx with
      | some _ =>
        let r := MVHashMapView.read env key txn_idx (t + 1) fuel
        (.blockedOn dep_idx :: r.1, r.2)
      | none =>
        let r := MVHashMapView.read env key txn_idx (t + 1) fuel
        (.resolvedImmediately dep_idx :: r.1, r.2)
    | .error .DeltaApplicationFailure =>
      ([], some (⟨key, .deltaFailure⟩, .U128 0))

/-!
## Base-view resolver (`LatestView::get_value` in `view.rs`)
-/

/-- A Move VM value (`move_vm_types::values::Value`), opaque except for
the `Value::u128` constructor the embedded code builds. -/
inductive MoveValue where
  | u128 (n : Nat)
  | other (tag : Nat)
  deriving DecidableEq

/-- The `CachedData` (`aptos_vm_types::data_cache`): a structured Move value
or raw serialized bytes. -/
inductive CachedData where
  | MoveValue (v : MoveValue)
  | Serialized (bytes : List Nat)
  deriving DecidableEq

/-- External functions `view.rs` calls on values and bytes:
`Readable::read` / `read_ref`, the aggregator's `deserialize` (bcs bytes
to `u128`), and `Value::simple_deserialize` (which `get_value` unwraps
with `expect`, so a `none` is a panic). -/
structure Externals (V : Type) where
  vread : V → Option CachedData
  vread_ref : V → Option CachedData
  deserializeU128 : List Nat → Nat
  simple_deserialize : List Nat → Nat → Option MoveValue

/-- The `ViewMapKind`: the multi-version branch carries its read
environment; the BTree branch is a plain map. -/
inductive ViewMapKind (K V : Type) where
  | MultiVersion (env : ReadEnv K V)
  | BTree (m : K → Option V)

/-- The `LatestView`: base view plus one of the two map kinds; the base view
`get_state_value` returns bytes, a miss, or a storage error. -/
structure LatestView (K V : Type) where
  base_view : K → Except Unit (Option (List Nat))
  latest_view : ViewMapKind K V
  txn_idx : Nat

/-- The error side of `get_value`'s `anyhow::Result`: a propagated
base-view storage error, or a `VMStatus`. -/
inductive GetValueErr where
  | baseError
  | vmError (s : VMStatus)
  deriving DecidableEq

/-- Shared tail of both branches of `get_value` on a base-view hit when
the MVS/BTree map had nothing: deserialize per the layout hint
(`none` = the `expect("should deserialize")` panicked) or return the raw
bytes. -/
def hintedData {V : Type} (ext : Externals V) (blob : List Nat)
    (hint : Option Nat) : Option CachedData :=
  match hint with
  | some layout =>
    match ext.simple_deserialize blob layout with
    | some value => some (.MoveValue value)
    | none => none
  | none => some (.Serialized blob)

/-- The `LatestView::get_value`.  The outer `Option` is `none` when the run
does not return normally: the read loop never left `Dependency` within
the fuel, or `simple_deserialize`'s `expect` panicked. -/
def LatestView.get_value {K V : Type} (ext : Externals V) (lv : LatestView K V)
    (key : K) (hint : Option Nat) (fuel : Nat) :
    Option (Except GetValueErr (Option CachedData)) :=
  match lv.latest_view with
  | .MultiVersion env =>
    match (MVHashMapView.read env key lv.txn_idx 0 fuel).2 with
    | none => none
    | some (_, .Value v) => some (.ok (ext.vread v))
    | some (_, .U128 n) => some (.ok (some (.MoveValue (.u128 n))))
    | some (_, .Unresolved delta) =>
      match lv.base_view key with
      | .error _ => some (.error .baseError)
      | .ok none => some (.error (.vmError (.Error .STORAGE_ERROR)))
      | .ok (some bytes) =>
        match delta.apply_to (ext.deserializeU128 bytes) with
        | .error vs => some (.error (.vmError vs))
        | .ok result => some (.ok (some (.MoveValue (.u128 result))))
    | some (_, .None) =>
      match lv.base_view key with
      | .error _ => some (.error .baseError)
      | .ok none => some (.ok none)
      | .ok (some blob) =>
        match hintedData ext blob hint with
        | some d => some (.ok (some d))
        | none => none
  | .BTree m =>
    match m key with
    | some v => some (.ok (ext.vread_ref v))
    | none =>
      match lv.base_view key with
      | .error _ => some (.error .baseError)
      | .ok none => some (.ok none)
      | .ok (some blob) =>
        match hintedData ext blob hint with
        | some d => some (.ok (some d))
        | none => none

/-!
## Coordinator shutdown (`quorum_store_coordinator.rs`)

The `CoordinatorCommand::Shutdown(ack_tx)` arm is sequential async code;
it is embedded as the trace of channel events it performs, in program
order, parameterized by the number of network listeners in
`quorum_store_msg_tx_vec`.  Each `oneshot::channel()` call yields a
fresh channel id.
-/

/-- The subsystems the shutdown arm signals. -/
inductive QSSubsystem where
  | batchStore
  | proofCoordinator
  | networkListener (i : Nat)
  deriving DecidableEq

/-- One observable channel event of the shutdown arm. -/
inductive ShutdownEvent where
  | sendShutdown (s : QSSubsystem) (chan : Nat)
  | recvAck (chan : Nat)
  | replyCaller
  deriving DecidableEq

/-- The `for network_listener_tx in self.quorum_store_msg_tx_vec` loop:
listener `i` gets fresh channel `2 + i`. -/
def listenerTrace : Nat → List ShutdownEvent
  | 0 => []
  | n + 1 =>
    listenerTrace n
      ++ [.sendShutdown (.networkListener n) (2 + n), .recvAck (2 + n)]

/-- The full event trace of the `Shutdown(ack_tx)` arm: BatchStore, then
ProofCoordinator, then each network listener in order, each awaited
before the next send, and finally the reply to the caller. -/
def shutdownTrace (n : Nat) : List ShutdownEvent :=
  [.sendShutdown .batchStore 0, .recvAck 0,
   .sendShutdown .proofCoordinator 1, .recvAck 1]
    ++ listenerTrace n ++ [.replyCaller]

/-- The trace up to (excluding) the reply to the caller. -/
def shutdownBody (n : Nat) : List ShutdownEvent :=
  [.sendShutdown .batchStore 0, .recvAck 0,
   .sendShutdown .proofCoordinator 1, .recvAck 1]
    ++ listenerTrace n

/-- A trace in which every `sendShutdown` is immediately followed by the
acknowledgement on the very channel it carried: each signalled subsystem
is awaited before anything further happens. -/
inductive AckedSeq : List ShutdownEvent → Prop
  | nil : AckedSeq []
  | pair (s : QSSubsystem) (c : Nat) (rest : List ShutdownEvent) :
      AckedSeq rest → AckedSeq (.sendShutdown s c :: .recvAck c :: rest)

/-- The acknowledgement channels of the `sendShutdown` events of a
trace, in order. -/
def sendChans : List ShutdownEvent → List Nat
  | [] => []
  | .sendShutdown _ c :: rest => c :: sendChans rest
  | _ :: rest => sendChans rest

/-- The subsystems signalled by the `sendShutdown` events of a trace,
in order. -/
def sendsOf : List ShutdownEvent → List QSSubsystem
  | [] => []
  | .sendShutdown s _ :: rest => s :: sendsOf rest
  | _ :: rest => sendsOf rest

/-- The invariant of claim C10: every digest with an entry in
`digest_to_proof` also has one in `digest_to_time`. -/
def ProofCoordinator.timeInv (c : ProofCoordinator) : Prop :=
  ∀ d, (c.digest_to_proof d).isSome → (c.digest_to_time d).isSome

/-!
Concrete instances used by the counterexamples and witnesses below.
-/

/-- A batch info: digest 7, authored by peer 0. -/
def exInfo : SignedDigestInfo := ⟨7, 0, 0⟩

/-- An info with the same digest 7 and author 0 but a differing
remaining field (e.g. a differing expiration). -/
def exInfoBad : SignedDigestInfo := ⟨7, 0, 1⟩

/-- A state for `exInfo` in which peer 5 has contributed signature 10. -/
def exState : IncrementalProofState :=
  ⟨exInfo, FinMap.insert FinMap.empty 5 10⟩

/-- A coordinator at peer 0 holding `exState` for digest 7 (created at
time 0). -/
def exCoordinator : ProofCoordinator :=
  ⟨0, 100, FinMap.insert FinMap.empty 7 exState,
   FinMap.insert FinMap.empty 7 0, []⟩

/-- A verifier whose voting-power threshold is never crossed. -/
def vvNone : ValidatorVerifier := ⟨fun _ => false, fun _ => 0⟩

/-- A verifier whose voting-power threshold is always crossed
(e.g. a single-validator network). -/
def vvAll : ValidatorVerifier := ⟨fun _ => true, fun _ => 0⟩

/-- A self-signed contribution by the local peer 0 for `exInfo`. -/
def sdLocal : SignedDigest := ⟨0, exInfo, 30⟩

/-!
## Helper lemmas
-/

@[simp]
theorem FinMap.empty_apply {α : Type} (k : Nat) :
    (FinMap.empty : FinMap α) k = none := rfl

@[simp]
theorem FinMap.insert_self {α : Type} (m : FinMap α) (k : Nat) (v : α) :
    m.insert k v k = some v := by
  simp [FinMap.insert]

theorem FinMap.insert_ne {α : Type} (m : FinMap α) (k k' : Nat) (v : α)
    (h : k' ≠ k) : m.insert k v k' = m k' := by
  simp [FinMap.insert, h]

@[simp]
theorem FinMap.remove_self {α : Type} (m : FinMap α) (k : Nat) :
    m.remove k k = none := by
  simp [FinMap.remove]

theorem FinMap.remove_ne {α : Type} (m : FinMap α) (k k' : Nat)
    (h : k' ≠ k) : m.remove k k' = m k' := by
  simp [FinMap.remove, h]

theorem FinMap.contains_eq {α : Type} (m : FinMap α) (k : Nat) :
    m.contains k = (m k).isSome := rfl

/-- Folding `remove` over a list of keys removes exactly those keys. -/
theorem FinMap.foldl_remove_apply {α : Type} (L : List Nat) (m : FinMap α)
    (d : Nat) :
    (L.foldl (fun m' k => m'.remove k) m) d = if d ∈ L then none else m d := by
  induction L generalizing m with
  | nil => simp
  | cons k t ih =>
    by_cases hdk : d = k
    · subst hdk
      simp [ih, FinMap.remove_self]
    · simp [List.foldl_cons, ih, FinMap.remove_ne m k d hdk, hdk]

/-!
## Read proxy: claims C4, C5, C6
-/

/-- C4: every result the read proxy returns to the VM is `Value`,
`U128`, `Unresolved` or `None` — the speculative `Dependency` and
`DeltaApplicationFailure` outcomes are never surfaced; and on a
`Dependency(dep_idx)` outcome the proxy asks the scheduler, retries
immediately when the dependency is reported already resolved, and
otherwise blocks on the returned condition and retries once signalled. -/
theorem read_never_surfaces_speculative {K V : Type} (env : ReadEnv K V)
    (key : K) (txn_idx t fuel : Nat) :
    (∀ evs desc res,
        MVHashMapView.read env key txn_idx t fuel = (evs, some (desc, res)) →
        (∃ v, res = .Value v) ∨ (∃ n, res = .U128 n)
          ∨ (∃ d, res = .Unresolved d) ∨ res = .None)
    ∧ (∀ dep_idx, env.mvsRead key t = .error (.Dependency dep_idx) →
        (env.waitForDependency txn_idx dep_idx = none →
          MVHashMapView.read env key txn_idx t (fuel + 1)
            = (.resolvedImmediately dep_idx
                 :: (MVHashMapView.read env key txn_idx (t + 1) fuel).1,
               (MVHashMapView.read env key txn_idx (t + 1) fuel).2))
        ∧ (env.waitForDependency txn_idx dep_idx = some () →
          MVHashMapView.read env key txn_idx t (fuel + 1)
            = (.blockedOn dep_idx
                 :: (MVHashMapView.read env key txn_idx (t + 1) fuel).1,
               (MVHashMapView.read env key txn_idx (t + 1) fuel).2))) := by
  constructor
  · intro evs desc res _
    cases res with
    | Value v => exact Or.inl ⟨v, rfl⟩
    | U128 n => exact Or.inr (Or.inl ⟨n, rfl⟩)
    | Unresolved d => exact Or.inr (Or.inr (Or.inl ⟨d, rfl⟩))
    | None => exact Or.inr (Or.inr (Or.inr rfl))
  · intro dep_idx hdep
    constructor <;> intro hw <;> simp [MVHashMapView.read, hdep, hw]

/-- C4 witness: a dependency that the scheduler reports already
resolved is retried without blocking and the second query's value is
surfaced. -/
theorem read_never_surfaces_speculative_witness :
    (let env : ReadEnv Nat Nat :=
      { mvsRead := fun _ t =>
          if t = 0 then .error (.Dependency 3) else .ok (.Resolved 42)
        waitForDependency := fun _ _ => none }
     MVHashMapView.read env 7 5 0 2
       = (.resolvedImmediately 3
            :: (MVHashMapView.read env 7 5 1 1).1,
          (MVHashMapView.read env 7 5 1 1).2)) := by
  exact ((read_never_surfaces_speculative _ 7 5 0 1).2 3 rfl).1 rfl

/-- C5: a `DeltaApplicationFailure` outcome captures a `DeltaFailure`
descriptor for the key and returns `U128(0)` to the caller. -/
theorem read_delta_failure_returns_zero {K V : Type} (env : ReadEnv K V)
    (key : K) (txn_idx t fuel : Nat)
    (h : env.mvsRead key t = .error .DeltaApplicationFailure) :
    MVHashMapView.read env key txn_idx t (fuel + 1)
      = ([], some (⟨key, .deltaFailure⟩, .U128 0)) := by
  simp [MVHashMapView.read, h]

/-- C5 witness. -/
theorem read_delta_failure_returns_zero_witness :
    MVHashMapView.read
      (V := Nat)
      { mvsRead := fun _ _ => .error .DeltaApplicationFailure
        waitForDependency := fun _ _ => none } 9 4 0 1
      = ([], some (⟨9, .deltaFailure⟩, .U128 0)) :=
  read_delta_failure_returns_zero _ 9 4 0 0 rfl

/-- C6: the MVS outcome determines both the captured descriptor and the
returned result: `Version` captures `Version(idx', inc')` and returns
`Value`; `Resolved(n)` captures `Resolved(n)` and returns `U128(n)`;
`NotFound` captures `Storage` and returns `None`; `Unresolved(delta)`
captures `Unresolved(delta)` and returns `Unresolved(delta)`. -/
theorem read_outcome_descriptor_table {K V : Type} (env : ReadEnv K V)
    (key : K) (txn_idx t fuel : Nat) :
    (∀ idx inc v, env.mvsRead key t = .ok (.Version idx inc v) →
       MVHashMapView.read env key txn_idx t (fuel + 1)
         = ([], some (⟨key, .version idx inc⟩, .Value v)))
    ∧ (∀ n, env.mvsRead key t = .ok (.Resolved n) →
       MVHashMapView.read env key txn_idx t (fuel + 1)
         = ([], some (⟨key, .resolved n⟩, .U128 n)))
    ∧ (env.mvsRead key t = .error .NotFound →
       MVHashMapView.read env key txn_idx t (fuel + 1)
         = ([], some (⟨key, .storage⟩, .None)))
    ∧ (∀ delta, env.mvsRead key t = .error (.Unresolved delta) →
       MVHashMapView.read env key txn_idx t (fuel + 1)
         = ([], some (⟨key, .unresolved delta⟩, .Unresolved delta))) := by
  refine ⟨?_, ?_, ?_, ?_⟩
  · intro idx inc v h
    simp [MVHashMapView.read, h]
  · intro n h
    simp [MVHashMapView.read, h]
  · intro h
    simp [MVHashMapView.read, h]
  · intro delta h
    simp [MVHashMapView.read, h]

/-- C6 witness: the `Version` row of the table at a concrete
environment. -/
theorem read_outcome_descriptor_table_witness :
    MVHashMapView.read
      { mvsRead := fun _ _ => .ok (.Version 2 1 (99 : Nat))
        waitForDependency := fun _ _ => none } 11 6 0 1
      = ([], some (⟨11, .version 2 1⟩, .Value 99)) :=
  (read_outcome_descriptor_table _ 11 6 0 0).1 2 1 99 rfl

/-!
## Base-view resolver: claim C7
-/

/-- C7: when a multi-version `get_value` read yields
`Unresolved(delta)`, the resolver fetches the key's bytes from the base
view, decodes them as a `u128`, applies the delta to that base and
returns the integer as a structured value; a delta-application failure
is returned as a VM-status (execution-level) error. -/
theorem get_value_unresolved_resolves_via_base {K V : Type}
    (ext : Externals V) (env : ReadEnv K V)
    (base : K → Except Unit (Option (List Nat)))
    (key : K) (txn_idx : Nat) (hint : Option Nat) (fuel : Nat)
    (delta : DeltaOp) (desc : ReadDescriptor K) (bytes : List Nat)
    (hread : (MVHashMapView.read env key txn_idx 0 fuel).2
      = some (desc, .Unresolved delta))
    (hbase : base key = .ok (some bytes)) :
    (∀ n, delta.apply_to (ext.deserializeU128 bytes) = .ok n →
       LatestView.get_value ext ⟨base, .MultiVersion env, txn_idx⟩ key hint fuel
         = some (.ok (some (.MoveValue (.u128 n)))))
    ∧ (∀ vs, delta.apply_to (ext.deserializeU128 bytes) = .error vs →
       LatestView.get_value ext ⟨base, .MultiVersion env, txn_idx⟩ key hint fuel
         = some (.error (.vmError vs))) := by
  constructor
  · intro n happ
    simp [LatestView.get_value, hread, hbase, happ]
  · intro vs happ
    simp [LatestView.get_value, hread, hbase, happ]

/-- C7 witness: base value 10, delta +3 bounded by 100 resolves to 13;
delta +3 bounded by 2 fails and surfaces an arithmetic VM status. -/
theorem get_value_unresolved_resolves_via_base_witness :
    (let ext : Externals Nat :=
      { vread := fun _ => none
        vread_ref := fun _ => none
        deserializeU128 := fun _ => 10
        simple_deserialize := fun _ _ => none }
     let envOk : ReadEnv Nat Nat :=
      { mvsRead := fun _ _ => .error (.Unresolved ⟨true, 3, 100⟩)
        waitForDependency := fun _ _ => none }
     let envBad : ReadEnv Nat Nat :=
      { mvsRead := fun _ _ => .error (.Unresolved ⟨true, 3, 2⟩)
        waitForDependency := fun _ _ => none }
     let base : Nat → Except Unit (Option (List Nat)) :=
      fun _ => .ok (some [1])
     LatestView.get_value ext ⟨base, .MultiVersion envOk, 0⟩ 5 none 1
       = some (.ok (some (.MoveValue (.u128 13))))
     ∧ LatestView.get_value ext ⟨base, .MultiVersion envBad, 0⟩ 5 none 1
       = some (.error (.vmError (.Error .ARITHMETIC_ERROR)))) := by
  refine ⟨?_, ?_⟩
  · exact (get_value_unresolved_resolves_via_base
      ⟨fun _ => none, fun _ => none, fun _ => 10, fun _ _ => none⟩
      ⟨fun _ _ => .error (.Unresolved ⟨true, 3, 100⟩), fun _ _ => none⟩
      (fun _ => .ok (some [1])) 5 0 none 1
      ⟨true, 3, 100⟩ ⟨5, .unresolved ⟨true, 3, 100⟩⟩ [1] rfl rfl).1 13 rfl
  · exact (get_value_unresolved_resolves_via_base
      ⟨fun _ => none, fun _ => none, fun _ => 10, fun _ _ => none⟩
      ⟨fun _ _ => .error (.Unresolved ⟨true, 3, 2⟩), fun _ _ => none⟩
      (fun _ => .ok (some [1])) 5 0 none 1
      ⟨true, 3, 2⟩ ⟨5, .unresolved ⟨true, 3, 2⟩⟩ [1] rfl rfl).2
      (.Error .ARITHMETIC_ERROR) rfl

/-!
## Proof coordinator: claims C3, C1, C2, C10, C8
-/

/-- After `init_proof`, the digest maps to the fresh empty state. -/
theorem init_proof_lookup (c : ProofCoordinator) (sd : SignedDigest)
    (now : Nat) :
    (c.init_proof sd now).digest_to_proof sd.digest
      = some (IncrementalProofState.new sd.info) := by
  simp [ProofCoordinator.init_proof]

/-- C3: an append whose digest has no state is rejected with `WrongInfo`
when the declared batch author is not the local peer (and the
coordinator is unchanged, so no state is created); when the declared
author is the local peer, a new empty state is created for the digest
first, and the call then proceeds exactly as an append on the
initialized coordinator. -/
theorem append_unknown_digest_author_check (c : ProofCoordinator)
    (sd : SignedDigest) (vv : ValidatorVerifier) (now : Nat)
    (h : c.digest_to_proof sd.digest = none) :
    (sd.info.batch_author ≠ c.peer_id →
       c.add_signature sd vv now = (c, .error .WrongInfo))
    ∧ (sd.info.batch_author = c.peer_id →
       (c.init_proof sd now).digest_to_proof sd.digest
           = some (IncrementalProofState.new sd.info)
       ∧ c.add_signature sd vv now
           = (c.init_proof sd now).add_signature sd vv now) := by
  constructor
  · intro ha
    simp [ProofCoordinator.add_signature, FinMap.contains_eq, h, ha]
  · intro ha
    refine ⟨init_proof_lookup c sd now, ?_⟩
    simp [ProofCoordinator.add_signature, FinMap.contains_eq, h, ha,
      init_proof_lookup c sd now]

/-- C3 witness: at a coordinator with no state for digest 7, a
non-author append is rejected with `WrongInfo`, and a local-author
append creates the empty state first. -/
theorem append_unknown_digest_author_check_witness :
    ((ProofCoordinator.new 100 3).add_signature sdLocal vvNone 0
       = (ProofCoordinator.new 100 3, .error .WrongInfo))
    ∧ (((ProofCoordinator.new 100 0).init_proof sdLocal 0).digest_to_proof 7
         = some (IncrementalProofState.new exInfo)
       ∧ (ProofCoordinator.new 100 0).add_signature sdLocal vvNone 0
           = ((ProofCoordinator.new 100 0).init_proof sdLocal 0).add_signature
               sdLocal vvNone 0) := by
  constructor
  · exact (append_unknown_digest_author_check (ProofCoordinator.new 100 3)
      sdLocal vvNone 0 rfl).1 (by decide)
  · exact (append_unknown_digest_author_check (ProofCoordinator.new 100 0)
      sdLocal vvNone 0 rfl).2 rfl

/-- C1 (amended): an append whose digest already has a state, whose info
matches the state's info, and whose signer has not yet contributed, is
inserted; if the resulting state is ready (local identity contributed
and voting power crossed per the verifier), the signatures are
aggregated into a single proof, the digest's state (and creation time)
is removed, and the proof is returned; otherwise no proof is returned
and the (updated) state remains in the map. -/
theorem append_existing_digest_inserts (c : ProofCoordinator)
    (sd : SignedDigest) (vv : ValidatorVerifier) (now : Nat)
    (st : IncrementalProofState)
    (hst : c.digest_to_proof sd.digest = some st)
    (hinfo : sd.info = st.info)
    (hnew : st.aggregated_signature.contains sd.signer = false) :
    (IncrementalProofState.ready
        ⟨st.info, st.aggregated_signature.insert sd.signer sd.signature⟩
        vv c.peer_id = true →
      c.add_signature sd vv now
        = ({ c with
              digest_to_proof := c.digest_to_proof.remove sd.digest
              digest_to_time := c.digest_to_time.remove sd.digest },
           .ok (some (IncrementalProofState.take
             ⟨st.info, st.aggregated_signature.insert sd.signer sd.signature⟩
             vv))))
    ∧ (IncrementalProofState.ready
        ⟨st.info, st.aggregated_signature.insert sd.signer sd.signature⟩
        vv c.peer_id = false →
      c.add_signature sd vv now
        = ({ c with
              digest_to_proof := c.digest_to_proof.insert sd.digest
                ⟨st.info, st.aggregated_signature.insert sd.signer sd.signature⟩ },
           .ok none)) := by
  have hc : c.digest_to_proof.contains sd.digest = true := by
    simp [FinMap.contains_eq, hst]
  constructor <;> intro hready <;>
    simp [ProofCoordinator.add_signature, ProofCoordinator.add_signature_known,
      hc, hst, IncrementalProofState.add_signature, hinfo, hnew, hready]

/-- C1 counterexample: with a state for digest 7 holding peer 5's
signature 10, (a) appending a second contribution by peer 5 (signature
20) is *not* inserted — the call returns `DuplicatedSignature` and the
entry still maps peer 5 to signature 10 — and (b) appending a
contribution by a fresh peer 6 whose info differs from the state's info
is *not* inserted either — the call returns `WrongInfo` and peer 6 is
absent from the entry.  Both refute "the contribution is inserted" as
universally stated. -/
theorem append_existing_digest_counterexample :
    ((exCoordinator.add_signature ⟨5, exInfo, 20⟩ vvNone 1).2
        = .error .DuplicatedSignature
      ∧ ((exCoordinator.add_signature ⟨5, exInfo, 20⟩ vvNone 1).1.digest_to_proof
            7).map (fun s => s.aggregated_signature 5) = some (some 10))
    ∧ ((exCoordinator.add_signature ⟨6, exInfoBad, 40⟩ vvNone 1).2
        = .error .WrongInfo
      ∧ ((exCoordinator.add_signature ⟨6, exInfoBad, 40⟩ vvNone 1).1.digest_to_proof
            7).map (fun s => s.aggregated_signature 6) = some none) := by
  refine ⟨⟨?_, ?_⟩, ⟨?_, ?_⟩⟩ <;> rfl

/-- C1 witness: at `exCoordinator`, the local peer's own contribution
makes the state ready under `vvAll` (proof emitted, state removed), and
leaves it pending under `vvNone` (no proof, updated state remains). -/
theorem append_existing_digest_inserts_witness :
    (exCoordinator.add_signature sdLocal vvAll 1
      = ({ exCoordinator with
            digest_to_proof := exCoordinator.digest_to_proof.remove 7
            digest_to_time := exCoordinator.digest_to_time.remove 7 },
         .ok (some (IncrementalProofState.take
           ⟨exState.info, exState.aggregated_signature.insert 0 30⟩ vvAll))))
    ∧ (exCoordinator.add_signature sdLocal vvNone 1
      = ({ exCoordinator with
            digest_to_proof := exCoordinator.digest_to_proof.insert 7
              ⟨exState.info, exState.aggregated_signature.insert 0 30⟩ },
         .ok none)) := by
  constructor
  · exact (append_existing_digest_inserts exCoordinator sdLocal vvAll 1
      exState rfl rfl rfl).1 rfl
  · exact (append_existing_digest_inserts exCoordinator sdLocal vvNone 1
      exState rfl rfl rfl).2 rfl

/-- A known-digest append whose info matches the state and whose signer
already contributed returns `DuplicatedSignature` and leaves the
coordinator unchanged. -/
theorem add_signature_duplicate_helper (c : ProofCoordinator)
    (sd : SignedDigest) (vv : ValidatorVerifier) (now : Nat)
    (st : IncrementalProofState)
    (hst : c.digest_to_proof sd.digest = some st)
    (hinfo : sd.info = st.info)
    (hdup : st.aggregated_signature.contains sd.signer = true) :
    c.add_signature sd vv now = (c, .error .DuplicatedSignature) := by
  have hc : c.digest_to_proof.contains sd.digest = true := by
    simp [FinMap.contains_eq, hst]
  simp [ProofCoordinator.add_signature, ProofCoordinator.add_signature_known,
    hc, hst, IncrementalProofState.add_signature, hinfo, hdup]

/-- Inversion: if the known-digest tail returned `Ok(None)`, the
resulting coordinator holds a state for the digest whose info matches
the appended contribution and whose contributor set contains its
signer. -/
theorem add_signature_known_ok_none_state (c : ProofCoordinator)
    (sd : SignedDigest) (vv : ValidatorVerifier) (c' : ProofCoordinator)
    (st : IncrementalProofState)
    (hst : c.digest_to_proof sd.digest = some st)
    (h : c.add_signature_known sd vv = (c', .ok none)) :
    ∃ st', c'.digest_to_proof sd.digest = some st'
      ∧ sd.info = st'.info
      ∧ st'.aggregated_signature.contains sd.signer = true := by
  simp only [ProofCoordinator.add_signature_known, hst] at h
  cases hadd : st.add_signature sd with
  | error e => rw [hadd] at h; simp at h
  | ok st2 =>
    simp only [hadd] at h
    unfold IncrementalProofState.add_signature at hadd
    split at hadd
    · simp at hadd
    · rename_i hne
      split at hadd
      · simp at hadd
      · rename_i hdup
        simp only [Except.ok.injEq] at hadd
        by_cases hr : st2.ready vv c.peer_id = true
        · rw [if_pos hr] at h
          simp at h
        · rw [if_neg hr] at h
          simp only [Prod.mk.injEq] at h
          refine ⟨st2, ?_, ?_, ?_⟩
          · rw [← h.1]
            subst hadd
            simp [FinMap.insert_self]
          · subst hadd
            exact not_not.mp hne
          · subst hadd
            simp [FinMap.contains_eq, FinMap.insert_self]

/-- Inversion for the full `add_signature`: an `Ok(None)` return leaves
a state for the digest that contains the contribution's signer and
matches its info. -/
theorem add_signature_ok_none_state (c : ProofCoordinator)
    (sd : SignedDigest) (vv : ValidatorVerifier) (now : Nat)
    (c' : ProofCoordinator)
    (h : c.add_signature sd vv now = (c', .ok none)) :
    ∃ st', c'.digest_to_proof sd.digest = some st'
      ∧ sd.info = st'.info
      ∧ st'.aggregated_signature.contains sd.signer = true := by
  unfold ProofCoordinator.add_signature at h
  split at h
  · simp at h
  · split at h
    · exact add_signature_known_ok_none_state _ sd vv c' _
        (init_proof_lookup c sd now) h
    · rename_i hcc
      have hc : (c.digest_to_proof sd.digest).isSome = true := by
        have h2 := not_not.mp hcc
        simpa [FinMap.contains_eq] using h2
      obtain ⟨st, hst⟩ := Option.isSome_iff_exists.mp hc
      exact add_signature_known_ok_none_state c sd vv c' st hst h

/-- C2 (amended): an append whose info matches the digest's state and
whose signer is already among the accumulated contributors returns the
`DuplicatedSignature` error with the coordinator (the state's info and
contributor-to-signature map) unchanged; in particular, when an append
returns `Ok(None)` (inserted, no proof emitted), repeating the identical
input makes the second call return `DuplicatedSignature` and leaves the
state unchanged. -/
theorem append_duplicate_rejected (sd : SignedDigest) (vv : ValidatorVerifier)
    (now now' : Nat) :
    (∀ (c : ProofCoordinator) (st : IncrementalProofState),
       c.digest_to_proof sd.digest = some st → sd.info = st.info →
       st.aggregated_signature.contains sd.signer = true →
       c.add_signature sd vv now = (c, .error .DuplicatedSignature))
    ∧ (∀ (c c' : ProofCoordinator),
       c.add_signature sd vv now = (c', .ok none) →
       c'.add_signature sd vv now' = (c', .error .DuplicatedSignature)) := by
  constructor
  · intro c st hst hinfo hdup
    exact add_signature_duplicate_helper c sd vv now st hst hinfo hdup
  · intro c c' h
    obtain ⟨st', h1, h2, h3⟩ := add_signature_ok_none_state c sd vv now c' h
    exact add_signature_duplicate_helper c' sd vv now' st' h1 h2 h3

/-- C2 counterexample: (a) at a state where peer 5 has contributed, a
contribution by the *same* signer 5 whose info differs from the state's
info is rejected with `WrongInfo`, not `DuplicatedSignature` (the info
check precedes the duplicate check); (b) appending the identical input
twice need not make the second call return `DuplicatedSignature`: when
the first self-append completes a proof (single-validator threshold),
the state is removed and the identical second append re-creates it and
emits a second proof. -/
theorem append_duplicate_rejected_counterexample :
    (exState.aggregated_signature.contains 5 = true
      ∧ exState.add_signature ⟨5, exInfoBad, 10⟩ = .error .WrongInfo
      ∧ exState.add_signature ⟨5, exInfoBad, 10⟩ ≠ .error .DuplicatedSignature)
    ∧ ((((ProofCoordinator.new 100 0).add_signature sdLocal vvAll 0).1.add_signature
          sdLocal vvAll 1).2 = .ok (some ⟨exInfo, 0⟩)
      ∧ (((ProofCoordinator.new 100 0).add_signature sdLocal vvAll 0).1.add_signature
          sdLocal vvAll 1).2 ≠ .error .DuplicatedSignature) := by
  have e1 : exState.add_signature ⟨5, exInfoBad, 10⟩ = .error .WrongInfo := rfl
  have e2 : (((ProofCoordinator.new 100 0).add_signature sdLocal vvAll
      0).1.add_signature sdLocal vvAll 1).2 = .ok (some ⟨exInfo, 0⟩) := rfl
  refine ⟨⟨rfl, e1, ?_⟩, ⟨e2, ?_⟩⟩
  · rw [e1]; simp
  · rw [e2]; simp

/-- C2 witness: a duplicate by peer 5 at `exCoordinator` is rejected
with the coordinator unchanged; and after a first append by fresh peer 6
returns `Ok(None)`, repeating it is rejected as a duplicate. -/
theorem append_duplicate_rejected_witness :
    (exCoordinator.add_signature ⟨5, exInfo, 20⟩ vvNone 0
        = (exCoordinator, .error .DuplicatedSignature))
    ∧ (({ exCoordinator with
           digest_to_proof := exCoordinator.digest_to_proof.insert 7
             ⟨exState.info, exState.aggregated_signature.insert 6 40⟩ }
          : ProofCoordinator).add_signature ⟨6, exInfo, 40⟩ vvNone 1
        = ({ exCoordinator with
              digest_to_proof := exCoordinator.digest_to_proof.insert 7
                ⟨exState.info, exState.aggregated_signature.insert 6 40⟩ },
           .error .DuplicatedSignature)) := by
  constructor
  · exact (append_duplicate_rejected ⟨5, exInfo, 20⟩ vvNone 0 0).1
      exCoordinator exState rfl rfl rfl
  · exact (append_duplicate_rejected ⟨6, exInfo, 40⟩ vvNone 0 1).2
      exCoordinator _ rfl

/-- The `init_proof` preserves the proof/time-map invariant. -/
theorem timeInv_init (c : ProofCoordinator) (sd : SignedDigest) (now : Nat)
    (hinv : c.timeInv) : (c.init_proof sd now).timeInv := by
  intro d hd
  simp only [ProofCoordinator.init_proof, FinMap.contains_eq] at hd ⊢
  by_cases hct : (c.digest_to_time sd.digest).isSome = true
  · rw [if_pos hct]
    by_cases he : d = sd.digest
    · subst he
      exact hct
    · rw [FinMap.insert_ne _ _ _ _ he] at hd
      exact hinv d hd
  · rw [if_neg hct]
    by_cases he : d = sd.digest
    · subst he
      simp [FinMap.insert_self]
    · rw [FinMap.insert_ne _ _ _ _ he] at hd
      rw [FinMap.insert_ne _ _ _ _ he]
      exact hinv d hd

/-- The known-digest tail of `add_signature` preserves the invariant. -/
theorem timeInv_known (c : ProofCoordinator) (sd : SignedDigest)
    (vv : ValidatorVerifier) (hinv : c.timeInv) :
    ((c.add_signature_known sd vv).1).timeInv := by
  cases hlook : c.digest_to_proof sd.digest with
  | none =>
    simp only [ProofCoordinator.add_signature_known, hlook]
    exact hinv
  | some st =>
    cases hadd : st.add_signature sd with
    | error e =>
      simp only [ProofCoordinator.add_signature_known, hlook, hadd]
      exact hinv
    | ok st2 =>
      by_cases hr : st2.ready vv c.peer_id = true
      · simp only [ProofCoordinator.add_signature_known, hlook, hadd]
        rw [if_pos hr]
        intro d hd
        by_cases he : d = sd.digest
        · subst he
          simp only [FinMap.remove_self] at hd
          simp at hd
        · simp only [FinMap.remove_ne _ _ _ he] at hd ⊢
          exact hinv d hd
      · simp only [ProofCoordinator.add_signature_known, hlook, hadd]
        rw [if_neg hr]
        intro d hd
        by_cases he : d = sd.digest
        · subst he
          exact hinv sd.digest (by simp [hlook])
        · simp only [FinMap.insert_ne _ _ _ _ he] at hd
          exact hinv d hd

/-- The `add_signature` preserves the invariant. -/
theorem timeInv_add_signature (c : ProofCoordinator) (sd : SignedDigest)
    (vv : ValidatorVerifier) (now : Nat) (hinv : c.timeInv) :
    ((c.add_signature sd vv now).1).timeInv := by
  unfold ProofCoordinator.add_signature
  split
  · exact hinv
  · split
    · exact timeInv_known _ sd vv (timeInv_init c sd now hinv)
    · exact timeInv_known _ sd vv hinv

/-- The `expire` preserves the invariant (it removes only from
`digest_to_proof`). -/
theorem timeInv_expire (c : ProofCoordinator) (now : Nat)
    (hinv : c.timeInv) : ((c.expire now).1).timeInv := by
  intro d hd
  simp only [ProofCoordinator.expire] at hd ⊢
  rw [FinMap.foldl_remove_apply] at hd
  split at hd
  · simp at hd
  · exact hinv d hd

/-- If the known-digest tail emitted a proof, the creation-time lookup
that the `.expect` performs succeeds (given the invariant). -/
theorem known_ok_some_time (c : ProofCoordinator) (sd : SignedDigest)
    (vv : ValidatorVerifier) (p : ProofOfStore) (hinv : c.timeInv)
    (h : (c.add_signature_known sd vv).2 = .ok (some p)) :
    (c.finalizeTime sd.digest).isSome := by
  unfold ProofCoordinator.add_signature_known at h
  cases hlook : c.digest_to_proof sd.digest with
  | none => rw [hlook] at h; simp at h
  | some st => exact hinv sd.digest (by simp [hlook])

/-- C10: every digest with a proof state also has a recorded creation
time: the invariant holds after `init_proof` (which also records the
creation time for the new digest), is preserved by `add_signature` and
by `expire` (which removes only from the proof-state map), and whenever
`add_signature` finalizes a proof, the creation-time lookup performed at
that point (the `.expect`) succeeds. -/
theorem digest_time_invariant (c : ProofCoordinator) (sd : SignedDigest)
    (vv : ValidatorVerifier) (now : Nat) (hinv : c.timeInv) :
    (c.init_proof sd now).timeInv
    ∧ ((c.init_proof sd now).digest_to_time sd.digest).isSome
    ∧ ((c.add_signature sd vv now).1).timeInv
    ∧ ((c.expire now).1).timeInv
    ∧ (∀ p : ProofOfStore, (c.add_signature sd vv now).2 = .ok (some p) →
        ((if c.digest_to_proof.contains sd.digest then c
          else c.init_proof sd now).finalizeTime sd.digest).isSome) := by
  refine ⟨timeInv_init c sd now hinv, ?_,
    timeInv_add_signature c sd vv now hinv, timeInv_expire c now hinv, ?_⟩
  · exact timeInv_init c sd now hinv sd.digest (by simp [init_proof_lookup])
  · intro p hp
    unfold ProofCoordinator.add_signature at hp
    split at hp
    · simp at hp
    · split at hp
      · rename_i hcc
        rw [if_neg (by simpa using hcc)]
        exact known_ok_some_time _ sd vv p (timeInv_init c sd now hinv) hp
      · rename_i hcc
        rw [if_pos (not_not.mp hcc)]
        exact known_ok_some_time c sd vv p hinv hp

/-- C10 witness: starting from a fresh coordinator, the invariant holds
after creating the state for `sdLocal`, and a finalizing self-append
finds the recorded creation time. -/
theorem digest_time_invariant_witness :
    ((ProofCoordinator.new 100 0).init_proof sdLocal 0).timeInv
    ∧ ((if (ProofCoordinator.new 100 0).digest_to_proof.contains
          sdLocal.digest
        then ProofCoordinator.new 100 0
        else (ProofCoordinator.new 100 0).init_proof sdLocal 0).finalizeTime
        sdLocal.digest).isSome := by
  have hinv : (ProofCoordinator.new 100 0).timeInv := by
    intro d hd
    simp [ProofCoordinator.new, FinMap.empty] at hd
  exact ⟨(digest_time_invariant _ sdLocal vvAll 0 hinv).1,
    (digest_time_invariant _ sdLocal vvAll 0 hinv).2.2.2.2 ⟨exInfo, 0⟩ rfl⟩

/-!
Claim C8.  `expire` returns only the updated coordinator and the number
of counter increments — its type leaves no room for a proof to be
emitted for an expired digest.
-/

/-- C8: on a tick, every digest whose timeout has elapsed is removed
from the digest-to-state map, the timeout counter is incremented exactly
once per expired entry, and a digest none of whose timeout entries have
elapsed keeps its state untouched. -/
theorem expire_removes_elapsed (c : ProofCoordinator) (now : Nat) :
    (∀ e : TimeoutEntry, e ∈ c.timeouts → e.expiry ≤ now →
       (c.expire now).1.digest_to_proof e.digest = none)
    ∧ (c.expire now).2
        = ((c.timeouts.filter (fun e => decide (e.expiry ≤ now))).map
            (fun e => e.digest)).length
    ∧ (∀ d : HashValue,
        (∀ e : TimeoutEntry, e ∈ c.timeouts → e.digest = d → now < e.expiry) →
        (c.expire now).1.digest_to_proof d = c.digest_to_proof d) := by
  refine ⟨?_, rfl, ?_⟩
  · intro e he hexp
    simp only [ProofCoordinator.expire, Timeouts.expire]
    rw [FinMap.foldl_remove_apply]
    rw [if_pos]
    exact List.mem_map.mpr
      ⟨e, List.mem_filter.mpr ⟨he, by simpa using hexp⟩, rfl⟩
  · intro d hd
    simp only [ProofCoordinator.expire, Timeouts.expire]
    rw [FinMap.foldl_remove_apply]
    rw [if_neg]
    intro hmem
    obtain ⟨e, hef, hde⟩ := List.mem_map.mp hmem
    obtain ⟨he, hexp⟩ := List.mem_filter.mp hef
    have hlt := hd e he hde
    have hle : e.expiry ≤ now := by simpa using hexp
    omega

/-- C8 witness: a single entry for digest 7 expiring at 5: a tick at
time 10 removes the state for 7; a tick at time 3 leaves it untouched. -/
theorem expire_removes_elapsed_witness :
    (({ exCoordinator with timeouts := [⟨5, 7⟩] }
        : ProofCoordinator).expire 10).1.digest_to_proof 7 = none
    ∧ (({ exCoordinator with timeouts := [⟨5, 7⟩] }
        : ProofCoordinator).expire 3).1.digest_to_proof 7
      = ({ exCoordinator with timeouts := [⟨5, 7⟩] }
          : ProofCoordinator).digest_to_proof 7 := by
  constructor
  · exact (expire_removes_elapsed _ 10).1 ⟨5, 7⟩ (by simp) (by decide)
  · exact (expire_removes_elapsed _ 3).2.2 7
      (by
        intro e he hdig
        rcases List.mem_singleton.mp he with rfl
        decide)

/-!
## Coordinator shutdown: claim C9
-/

/-- Concatenating acknowledged sequences yields an acknowledged
sequence. -/
theorem AckedSeq.append {a b : List ShutdownEvent} (ha : AckedSeq a)
    (hb : AckedSeq b) : AckedSeq (a ++ b) := by
  induction ha with
  | nil => exact hb
  | pair s c rest _ ih =>
    rw [List.cons_append, List.cons_append]
    exact AckedSeq.pair s c _ ih

/-- The listener loop awaits each acknowledgement right after its send. -/
theorem ackedSeq_listenerTrace (n : Nat) : AckedSeq (listenerTrace n) := by
  induction n with
  | zero => exact AckedSeq.nil
  | succ n ih => exact AckedSeq.append ih (AckedSeq.pair _ _ _ AckedSeq.nil)

/-- The `sendChans` distributes over concatenation. -/
theorem sendChans_append (a b : List ShutdownEvent) :
    sendChans (a ++ b) = sendChans a ++ sendChans b := by
  induction a with
  | nil => rfl
  | cons e t ih => cases e <;> simp [sendChans, ih]

/-- The channels of the listener loop are `2 + i` for `i < n`. -/
theorem sendChans_listenerTrace (n : Nat) :
    sendChans (listenerTrace n) = (List.range n).map (fun i => 2 + i) := by
  induction n with
  | zero => rfl
  | succ n ih =>
    simp [listenerTrace, sendChans_append, ih, List.range_succ, sendChans]

/-- The `sendsOf` distributes over concatenation. -/
theorem sendsOf_append (a b : List ShutdownEvent) :
    sendsOf (a ++ b) = sendsOf a ++ sendsOf b := by
  induction a with
  | nil => rfl
  | cons e t ih => cases e <;> simp [sendsOf, ih]

/-- The listener loop signals exactly listeners `0, …, n-1` in order. -/
theorem sendsOf_listenerTrace (n : Nat) :
    sendsOf (listenerTrace n)
      = (List.range n).map (fun i => QSSubsystem.networkListener i) := by
  induction n with
  | zero => rfl
  | succ n ih =>
    simp [listenerTrace, sendsOf_append, ih, List.range_succ, sendsOf]

/-- No reply-to-caller occurs inside the listener loop. -/
theorem replyCaller_not_mem_listenerTrace (n : Nat) :
    ShutdownEvent.replyCaller ∉ listenerTrace n := by
  induction n with
  | zero => simp [listenerTrace]
  | succ n ih => simp [listenerTrace, ih]

/-- C9: the shutdown arm's event trace is a sequence in which every
subsystem it signals — the batch store, the proof coordinator, and each
network listener in order — receives a `Shutdown` carrying a fresh
(pairwise distinct) acknowledgement channel and is awaited on exactly
that channel immediately, and the reply on the caller's acknowledgement
channel is the final event, after every awaited acknowledgement. -/
theorem shutdown_two_phase (n : Nat) :
    shutdownTrace n = shutdownBody n ++ [.replyCaller]
    ∧ ShutdownEvent.replyCaller ∉ shutdownBody n
    ∧ AckedSeq (shutdownBody n)
    ∧ (sendChans (shutdownBody n)).Nodup
    ∧ sendsOf (shutdownBody n)
        = [.batchStore, .proofCoordinator]
            ++ (List.range n).map (fun i => QSSubsystem.networkListener i) := by
  refine ⟨?_, ?_, ?_, ?_, ?_⟩
  · simp [shutdownTrace, shutdownBody]
  · simp [shutdownBody, replyCaller_not_mem_listenerTrace n]
  · exact AckedSeq.pair _ _ _ (AckedSeq.pair _ _ _ (ackedSeq_listenerTrace n))
  · have hchans : sendChans (shutdownBody n)
        = 0 :: 1 :: (List.range n).map (fun i => 2 + i) := by
      simp [shutdownBody, sendChans, sendChans_append, sendChans_listenerTrace]
    rw [hchans]
    refine List.nodup_cons.mpr ⟨?_, List.nodup_cons.mpr ⟨?_, ?_⟩⟩
    · intro h
      rcases List.mem_cons.mp h with h | h
      · omega
      · obtain ⟨i, _, hi⟩ := List.mem_map.mp h
        omega
    · intro h
      obtain ⟨i, _, hi⟩ := List.mem_map.mp h
      omega
    · exact List.Nodup.map (fun a b hab => by omega) (List.nodup_range n)
  · simp [shutdownBody, sendsOf, sendsOf_append, sendsOf_listenerTrace]

/-- C9 witness: the shutdown trace with two network listeners ends in
the caller reply and uses pairwise distinct acknowledgement channels. -/
theorem shutdown_two_phase_witness :
    shutdownTrace 2 = shutdownBody 2 ++ [.replyCaller]
    ∧ (sendChans (shutdownBody 2)).Nodup :=
  ⟨(shutdown_two_phase 2).1, (shutdown_two_phase 2).2.2.2.1⟩
